import Mathlib

/-!
Shallow embedding of the product-catalog domain core
(`internal/app/product/domain`, `internal/pkg/commitplan`,
`internal/services`): Money, Discount, ChangeTracker, the Product
aggregate with its domain events, the commit plan, and the two event
enrichers, together with theorems settling the specification claims.

Modelling conventions:
* `time.Time` is modelled as `Int` (epoch seconds); `t.Before u` is
  `t < u`, `t.After u` is `u < t`, `t.Equal u` is `t = u`, `t.Unix()`
  is `t` itself.
* `big.Rat` is modelled as `ℚ` (`big.NewRat n d` is `(n : ℚ) / d`,
  exact and auto-normalised in both).
* Go methods that mutate the receiver in place and return an `error`
  are modelled as functions returning the pair (returned error, final
  receiver state): the Go code mutates nothing before an early error
  return, so the error branches return the receiver unchanged.
* Calls to `time.Now()` and `uuid.New()` are modelled as explicit
  `wallClock` / `freshID` arguments supplied by the environment.
* Nil pointer arguments that the Go code tests for are modelled as
  `Option`.
-/

namespace ProductCatalog

/-- Go `time.Time`, reduced to its comparable epoch value. -/
abbrev Instant := Int

/-- The sentinel error values of `domain_errors.go`. -/
inductive DomainError where
  | productNotFound
  | productNotActive
  | productAlreadyActive
  | productIsArchived
  | invalidDiscountPeriod
  | discountOutOfRange
  | noActiveDiscount
  | invalidName
  | invalidCategory
  | invalidPrice
  | invalidDateRange
  | concurrentModification
  deriving DecidableEq

/-- Equality of fallible results is decidable (needed so witnesses can
evaluate the embedded operations on concrete inputs). -/
instance {ε α : Type} [DecidableEq ε] [DecidableEq α] : DecidableEq (Except ε α)
  | .ok a, .ok b =>
    if h : a = b then .isTrue (by rw [h]) else .isFalse (by simp [h])
  | .ok _, .error _ => .isFalse (by simp)
  | .error _, .ok _ => .isFalse (by simp)
  | .error e, .error f =>
    if h : e = f then .isTrue (by rw [h]) else .isFalse (by simp [h])

/-- Go `Money` wraps a `*big.Rat`; modelled as an exact rational. -/
structure Money where
  value : ℚ
  deriving DecidableEq

/-- Go `NewMoney(numerator, denominator)`: rejects a zero denominator, builds
`big.NewRat(numerator, denominator)` and rejects a non-positive value. -/
def NewMoney (numerator denominator : Int) : Except DomainError Money :=
  if denominator = 0 then
    .error .invalidPrice
  else
    let rat : ℚ := (numerator : ℚ) / (denominator : ℚ)
    if rat ≤ 0 then
      .error .invalidPrice
    else
      .ok ⟨rat⟩

/-- Go `Money.Numerator()` on a non-nil receiver: `value.Num().Int64()`. -/
def Money.Numerator (m : Money) : Int := m.value.num

/-- Go `Money.Denominator()` on a non-nil receiver: `value.Denom().Int64()`. -/
def Money.Denominator (m : Money) : Int := (m.value.den : Int)

/-- Go `Money.ApplyPercentage(percentage)` on a non-nil receiver: range-check,
then `value - value * (percentage/100)` in exact rational arithmetic. -/
def Money.ApplyPercentage (m : Money) (percentage : Int) : Except DomainError Money :=
  if percentage < 0 ∨ percentage > 100 then
    .error .discountOutOfRange
  else
    let discount : ℚ := m.value * ((percentage : ℚ) / (100 : ℚ))
    let finalPrice : ℚ := m.value - discount
    .ok ⟨finalPrice⟩

/-- Go `Money.Add(other)` on non-nil receivers. -/
def Money.Add (m other : Money) : Except DomainError Money :=
  .ok ⟨m.value + other.value⟩

/-- Go `Discount`: percentage with a validity window. -/
structure Discount where
  percentage : Int
  startDate : Instant
  endDate : Instant
  deriving DecidableEq

/-- Go `NewDiscount(percentage, startDate, endDate)`. -/
def NewDiscount (percentage : Int) (startDate endDate : Instant) :
    Except DomainError Discount :=
  if percentage < 0 ∨ percentage > 100 then
    .error .discountOutOfRange
  else if endDate < startDate then
    .error .invalidDateRange
  else
    .ok ⟨percentage, startDate, endDate⟩

/-- Go `Discount.IsActiveAt(t)` on a non-nil receiver:
`!t.Before(startDate) && !t.After(endDate)`. -/
def Discount.IsActiveAt (d : Discount) (t : Instant) : Bool :=
  !decide (t < d.startDate) && !decide (d.endDate < t)

/-- Go `Discount.IsValidAt(now)` on a non-nil receiver:
`now.Before(endDate) || now.Equal(endDate)`. -/
def Discount.IsValidAt (d : Discount) (now : Instant) : Bool :=
  decide (now < d.endDate) || decide (now = d.endDate)

/-- Go `ChangeTracker`: Go keeps `map[string]bool` whose entries are only
ever set to `true`; modelled as the list of its keys (no duplicates are
ever inserted). -/
structure ChangeTracker where
  dirtyFields : List String
  deriving DecidableEq

/-- Go `NewChangeTracker()`. -/
def NewChangeTracker : ChangeTracker := ⟨[]⟩

/-- Go `ChangeTracker.MarkDirty(field)`: `dirtyFields[field] = true`
(re-inserting an existing key leaves the map unchanged). -/
def ChangeTracker.MarkDirty (ct : ChangeTracker) (field : String) : ChangeTracker :=
  if ct.dirtyFields.contains field then ct else ⟨ct.dirtyFields ++ [field]⟩

/-- Go `ChangeTracker.Dirty(field)`. -/
def ChangeTracker.Dirty (ct : ChangeTracker) (field : String) : Bool :=
  ct.dirtyFields.contains field

/-- Go `ChangeTracker.HasChanges()`: `len(dirtyFields) > 0`. -/
def ChangeTracker.HasChanges (ct : ChangeTracker) : Bool :=
  !ct.dirtyFields.isEmpty

/-- Field-name constants of `change_tracker.go`. -/
def FieldID : String := "id"

def FieldName : String := "name"

def FieldDescription : String := "description"

def FieldCategory : String := "category"

def FieldBasePrice : String := "base_price"

def FieldDiscount : String := "discount"

def FieldStatus : String := "status"

def FieldArchivedAt : String := "archived_at"

/-- Go `BaseEvent`: common event envelope. -/
structure BaseEvent where
  aggregateID : String
  eventType : String
  occurredAt : Instant
  deriving DecidableEq

/-- Go `NewBaseEvent(aggregateID, eventType)` stamps `occurredAt` from
`time.Now()`; that wall-clock read is modelled as the explicit
`wallClock` argument. -/
def NewBaseEvent (wallClock : Instant) (aggregateID eventType : String) : BaseEvent :=
  { aggregateID := aggregateID, eventType := eventType, occurredAt := wallClock }

/-- The closed set of concrete event structs of `domain_errors.go`. -/
inductive DomainEvent where
  | productCreated (base : BaseEvent) (name category : String)
      (basePriceNumerator basePriceDenominator : Int)
  | productUpdated (base : BaseEvent)
  | productActivated (base : BaseEvent)
  | productDeactivated (base : BaseEvent)
  | productArchived (base : BaseEvent)
  | discountApplied (base : BaseEvent) (discountPercent startDate endDate : Int)
  | discountRemoved (base : BaseEvent)
  deriving DecidableEq

/-- The embedded `BaseEvent` of any variant. -/
def DomainEvent.base : DomainEvent → BaseEvent
  | .productCreated b _ _ _ _ => b
  | .productUpdated b => b
  | .productActivated b => b
  | .productDeactivated b => b
  | .productArchived b => b
  | .discountApplied b _ _ _ => b
  | .discountRemoved b => b

/-- Go `DomainEvent.AggregateID()`. -/
def DomainEvent.AggregateID (e : DomainEvent) : String := e.base.aggregateID

/-- Go `DomainEvent.EventType()`. -/
def DomainEvent.EventType (e : DomainEvent) : String := e.base.eventType

/-- Go `DomainEvent.OccurredAt()`. -/
def DomainEvent.OccurredAt (e : DomainEvent) : Instant := e.base.occurredAt

/-- Go `NewProductCreatedEvent`. -/
def NewProductCreatedEvent (wallClock : Instant) (aggregateID name category : String)
    (numerator denominator : Int) : DomainEvent :=
  .productCreated (NewBaseEvent wallClock aggregateID "product.created")
    name category numerator denominator

/-- Go `NewProductUpdatedEvent`. -/
def NewProductUpdatedEvent (wallClock : Instant) (aggregateID : String) : DomainEvent :=
  .productUpdated (NewBaseEvent wallClock aggregateID "product.updated")

/-- Go `NewProductActivatedEvent`. -/
def NewProductActivatedEvent (wallClock : Instant) (aggregateID : String) : DomainEvent :=
  .productActivated (NewBaseEvent wallClock aggregateID "product.activated")

/-- Go `NewProductDeactivatedEvent`. -/
def NewProductDeactivatedEvent (wallClock : Instant) (aggregateID : String) : DomainEvent :=
  .productDeactivated (NewBaseEvent wallClock aggregateID "product.deactivated")

/-- Go `NewProductArchivedEvent`. -/
def NewProductArchivedEvent (wallClock : Instant) (aggregateID : String) : DomainEvent :=
  .productArchived (NewBaseEvent wallClock aggregateID "product.archived")

/-- Go `NewDiscountAppliedEvent`. -/
def NewDiscountAppliedEvent (wallClock : Instant) (aggregateID : String)
    (discountPercent startDate endDate : Int) : DomainEvent :=
  .discountApplied (NewBaseEvent wallClock aggregateID "discount.applied")
    discountPercent startDate endDate

/-- Go `NewDiscountRemovedEvent`. -/
def NewDiscountRemovedEvent (wallClock : Instant) (aggregateID : String) : DomainEvent :=
  .discountRemoved (NewBaseEvent wallClock aggregateID "discount.removed")

/-- Go `ProductStatus`. -/
inductive ProductStatus where
  | active
  | inactive
  | archived
  deriving DecidableEq

/-- The `Product` aggregate root. -/
structure Product where
  id : String
  name : String
  description : String
  category : String
  basePrice : Money
  discount : Option Discount
  status : ProductStatus
  createdAt : Instant
  updatedAt : Instant
  archivedAt : Option Instant
  changes : ChangeTracker
  events : List DomainEvent
  version : Int
  deriving DecidableEq

/-- Go `Product.recordEvent(event)`. -/
def Product.recordEvent (p : Product) (event : DomainEvent) : Product :=
  { p with events := p.events ++ [event] }

/-- Go `NewProduct(id, name, description, category, basePrice, now)`; the
`time.Now()` read inside the raised event's constructor is the explicit
`wallClock` argument. -/
def NewProduct (id name description category : String) (basePrice : Option Money)
    (now wallClock : Instant) : Except DomainError Product :=
  if id = "" then
    .error .invalidName
  else if name = "" then
    .error .invalidName
  else if category = "" then
    .error .invalidCategory
  else
    match basePrice with
    | none => .error .invalidPrice
    | some bp =>
      let p : Product :=
        { id := id
          name := name
          description := description
          category := category
          basePrice := bp
          discount := none
          status := .active
          createdAt := now
          updatedAt := now
          archivedAt := none
          changes := NewChangeTracker
          events := []
          version := 0 }
      let p := { p with changes :=
        (((((p.changes.MarkDirty FieldID).MarkDirty FieldName).MarkDirty
          FieldDescription).MarkDirty FieldCategory).MarkDirty
          FieldBasePrice).MarkDirty FieldStatus }
      .ok (p.recordEvent
        (NewProductCreatedEvent wallClock id name category bp.Numerator bp.Denominator))

/-- Go `Product.UpdateDetails(name, description, category, now)`. -/
def Product.UpdateDetails (p : Product) (name description category : String)
    (now wallClock : Instant) : Option DomainError × Product :=
  if p.status = ProductStatus.archived then
    (some .productIsArchived, p)
  else if name = "" then
    (some .invalidName, p)
  else if category = "" then
    (some .invalidCategory, p)
  else
    let p1 := if p.name ≠ name then
        { p with name := name, changes := p.changes.MarkDirty FieldName }
      else p
    let u1 : Bool := decide (p.name ≠ name)
    let p2 := if p1.description ≠ description then
        { p1 with description := description,
                  changes := p1.changes.MarkDirty FieldDescription }
      else p1
    let u2 : Bool := u1 || decide (p1.description ≠ description)
    let p3 := if p2.category ≠ category then
        { p2 with category := category, changes := p2.changes.MarkDirty FieldCategory }
      else p2
    let u3 : Bool := u2 || decide (p2.category ≠ category)
    if u3 then
      let p4 := { p3 with updatedAt := now, changes := p3.changes.MarkDirty FieldStatus }
      (none, p4.recordEvent (NewProductUpdatedEvent wallClock p4.id))
    else
      (none, p3)

/-- Go `Product.Activate(now)`. -/
def Product.Activate (p : Product) (now wallClock : Instant) :
    Option DomainError × Product :=
  if p.status = ProductStatus.archived then
    (some .productIsArchived, p)
  else if p.status = ProductStatus.active then
    (some .productAlreadyActive, p)
  else
    let p := { p with status := ProductStatus.active, updatedAt := now,
                      changes := p.changes.MarkDirty FieldStatus }
    (none, p.recordEvent (NewProductActivatedEvent wallClock p.id))

/-- Go `Product.Deactivate(now)`. -/
def Product.Deactivate (p : Product) (now wallClock : Instant) :
    Option DomainError × Product :=
  if p.status = ProductStatus.archived then
    (some .productIsArchived, p)
  else if p.status = ProductStatus.inactive then
    (none, p)
  else
    let p := { p with status := ProductStatus.inactive, updatedAt := now,
                      changes := p.changes.MarkDirty FieldStatus }
    (none, p.recordEvent (NewProductDeactivatedEvent wallClock p.id))

/-- Go `Product.ApplyDiscount(discount, now)`; `StartDate().Unix()` and
`EndDate().Unix()` are the stored instants themselves. -/
def Product.ApplyDiscount (p : Product) (discount : Discount)
    (now wallClock : Instant) : Option DomainError × Product :=
  if p.status ≠ ProductStatus.active then
    (some .productNotActive, p)
  else if !discount.IsValidAt now then
    (some .invalidDiscountPeriod, p)
  else
    let p := { p with discount := some discount, updatedAt := now,
                      changes := (p.changes.MarkDirty FieldDiscount).MarkDirty FieldStatus }
    (none, p.recordEvent (NewDiscountAppliedEvent wallClock p.id
      discount.percentage discount.startDate discount.endDate))

/-- Go `Product.RemoveDiscount(now)`. -/
def Product.RemoveDiscount (p : Product) (now wallClock : Instant) :
    Option DomainError × Product :=
  if p.status = ProductStatus.archived then
    (some .productIsArchived, p)
  else
    match p.discount with
    | none => (some .noActiveDiscount, p)
    | some _ =>
      let p := { p with discount := none, updatedAt := now,
                        changes := (p.changes.MarkDirty FieldDiscount).MarkDirty FieldStatus }
      (none, p.recordEvent (NewDiscountRemovedEvent wallClock p.id))

/-- Go `Product.Archive(now)`. -/
def Product.Archive (p : Product) (now wallClock : Instant) :
    Option DomainError × Product :=
  if p.status = ProductStatus.archived then
    (none, p)
  else
    let p := { p with status := ProductStatus.archived, updatedAt := now,
                      archivedAt := some now,
                      changes := (p.changes.MarkDirty FieldStatus).MarkDirty FieldArchivedAt }
    (none, p.recordEvent (NewProductArchivedEvent wallClock p.id))

/-- Go `Product.EffectivePrice(now)`: `basePrice` when the discount pointer
is nil or the discount is not active at `now`, else
`basePrice.ApplyPercentage(discount.Percentage())`. -/
def Product.EffectivePrice (p : Product) (now : Instant) : Except DomainError Money :=
  match p.discount with
  | none => .ok p.basePrice
  | some d =>
    if !d.IsActiveAt now then .ok p.basePrice
    else p.basePrice.ApplyPercentage d.percentage

/-- Go `commitplan.Plan`, over an opaque mutation type `M`
(`*spanner.Mutation` in Go); a possibly-nil mutation pointer is
`Option M`. -/
structure Plan (M : Type) where
  mutations : List M
  deriving DecidableEq

/-- Go `commitplan.NewPlan()`. -/
def NewPlan (M : Type) : Plan M := ⟨[]⟩

/-- Go `Plan.Add(mut)`: appends only when the pointer is non-nil. -/
def Plan.Add {M : Type} (p : Plan M) (mutation : Option M) : Plan M :=
  match mutation with
  | some m => ⟨p.mutations ++ [m]⟩
  | none => p

/-- Go `Plan.Mutations()`. -/
def Plan.Mutations {M : Type} (p : Plan M) : List M := p.mutations

/-- Go `Plan.Size()`. -/
def Plan.Size {M : Type} (p : Plan M) : Nat := p.mutations.length

/-- Values stored in the `map[string]interface{}` payload. -/
inductive PayloadValue where
  | str (s : String)
  | int (n : Int)
  deriving DecidableEq

/-- Go `contracts.OutboxEvent`; the payload map is modelled as an
association list in insertion order. -/
structure OutboxEvent where
  EventID : String
  EventType : String
  AggregateID : String
  Payload : List (String × PayloadValue)
  deriving DecidableEq

/-- Go `services.EventEnricher.EnrichEvent(domainEvent)`: its switch binds
`aggregateID`/`eventType`/`occurredAt` in exactly the same way in all
seven variant cases and adds no variant-specific payload fields; the
`uuid.New().String()` call is the explicit `freshID` argument.  (The Go
`default:` branch returning an empty record is unreachable here because
`DomainEvent` is the closed set of the seven variants.) -/
def EventEnricher.EnrichEvent (freshID : String) (domainEvent : DomainEvent) :
    OutboxEvent :=
  let aggregateID := domainEvent.AggregateID
  let eventType := domainEvent.EventType
  let occurredAt := domainEvent.OccurredAt
  { EventID := freshID
    EventType := eventType
    AggregateID := aggregateID
    Payload := [("aggregate_id", .str aggregateID),
                ("event_type", .str eventType),
                ("occurred_at", .int occurredAt)] }

/-- Go `create_product.Interactor.enrichEvent(event)`: common envelope
fields followed by the variant-specific fields of its switch; the
`uuid.New().String()` call is the explicit `freshID` argument. -/
def Interactor.enrichEvent (freshID : String) (event : DomainEvent) : OutboxEvent :=
  let common : List (String × PayloadValue) :=
    [("aggregate_id", .str event.AggregateID),
     ("event_type", .str event.EventType),
     ("occurred_at", .int event.OccurredAt)]
  let specific : List (String × PayloadValue) :=
    match event with
    | .productCreated _ name category numerator denominator =>
        [("name", .str name),
         ("category", .str category),
         ("base_price_numerator", .int numerator),
         ("base_price_denominator", .int denominator)]
    | .discountApplied _ discountPercent startDate endDate =>
        [("discount_percent", .int discountPercent),
         ("start_date", .int startDate),
         ("end_date", .int endDate)]
    | _ => []
  { EventID := freshID
    EventType := event.EventType
    AggregateID := event.AggregateID
    Payload := common ++ specific }

/-! Concrete fixtures used by witnesses and counterexamples. -/

/-- A sample discount: 20% over the window [100, 200]. -/
def sampleDiscount : Discount := ⟨20, 100, 200⟩

/-- A sample active product reconstructed from persistence
(clean tracker, empty event buffer), as `ReconstructProduct` builds it. -/
def sampleActive : Product :=
  { id := "p-1"
    name := "Widget"
    description := "A widget"
    category := "electronics"
    basePrice := ⟨(25 : ℚ)⟩
    discount := none
    status := .active
    createdAt := 0
    updatedAt := 0
    archivedAt := none
    changes := NewChangeTracker
    events := []
    version := 0 }

/-- The sample product with inactive status. -/
def sampleInactive : Product := { sampleActive with status := .inactive }

/-- The sample product with archived status. -/
def sampleArchived : Product :=
  { sampleActive with status := .archived, archivedAt := some 0 }

/-- The sample active product carrying `sampleDiscount`. -/
def sampleDiscounted : Product :=
  { sampleActive with discount := some sampleDiscount }

/-- Helper: folding `Plan.Add` over a list of possibly-nil mutation
pointers appends exactly the non-nil ones, in order. -/
theorem foldl_Add_mutations {M : Type} (muts : List (Option M)) (p : Plan M) :
    (muts.foldl Plan.Add p).mutations = p.mutations ++ muts.filterMap id := by
  induction muts generalizing p with
  | nil => simp
  | cons head tail ih =>
    cases head with
    | none => simp [List.foldl_cons, Plan.Add, ih]
    | some m => simp [List.foldl_cons, Plan.Add, ih]

/-- C9: on any sequence of `Add` calls on a commit plan, a nil mutation
is ignored (the plan is returned unmodified), and after adding a whole
list of possibly-nil mutations starting from `NewPlan`, the plan holds
exactly the non-nil ones in append order and `Size()` equals their
number. -/
theorem C9_commitPlan_add (M : Type) (muts : List (Option M)) (q : Plan M) :
    q.Add none = q ∧
    (muts.foldl Plan.Add (NewPlan M)).Mutations = muts.filterMap id ∧
    (muts.foldl Plan.Add (NewPlan M)).Size = (muts.filterMap id).length := by
  refine ⟨rfl, ?_, ?_⟩
  · simp [Plan.Mutations, foldl_Add_mutations, NewPlan]
  · simp [Plan.Size, foldl_Add_mutations, NewPlan]

/-- C10: `NewProduct` called with an empty id fails with the
`InvalidName` error even when name and category are non-empty and a
valid base price is supplied; the id check is first and reuses the
name-validation error value. -/
theorem C10_newProduct_empty_id (name description category : String) (bp : Money)
    (now wallClock : Instant) (hname : name ≠ "") (hcat : category ≠ "") :
    NewProduct "" name description category (some bp) now wallClock =
      .error DomainError.invalidName := by
  simp [NewProduct]

/-- Witness for C10 at concrete inputs. -/
theorem C10_witness :
    NewProduct "" "Widget" "a widget" "electronics" (some ⟨25⟩) 0 0 =
      .error DomainError.invalidName :=
  C10_newProduct_empty_id "Widget" "a widget" "electronics" ⟨25⟩ 0 0
    (by decide) (by decide)

/-- C7: `Deactivate` on an already-inactive product and `Archive` on an
already-archived product both return success and return the aggregate
entirely unchanged: same fields, same dirty set, same event buffer,
same `updatedAt`. -/
theorem C7_idempotent_noop (p q : Product) (now wallClock now2 wallClock2 : Instant)
    (hp : p.status = ProductStatus.inactive) (hq : q.status = ProductStatus.archived) :
    p.Deactivate now wallClock = (none, p) ∧ q.Archive now2 wallClock2 = (none, q) := by
  constructor
  · simp [Product.Deactivate, hp]
  · simp [Product.Archive, hq]

/-- Witness for C7 at concrete inputs. -/
theorem C7_witness :
    sampleInactive.Deactivate 5 7 = (none, sampleInactive) ∧
    sampleArchived.Archive 5 7 = (none, sampleArchived) :=
  C7_idempotent_noop sampleInactive sampleArchived 5 7 5 7 rfl rfl

/-- C5: `IsValidAt(now)` holds exactly when `now ≤ endDate` (a window
already started, or entirely in the future, is still valid), and on an
active product `ApplyDiscount` fails with `InvalidDiscountPeriod`
exactly when `now > endDate`. -/
theorem C5_isValidAt_applyDiscount (d : Discount) (now : Instant) (p : Product)
    (hact : p.status = ProductStatus.active) (wallClock : Instant) :
    (d.IsValidAt now = true ↔ now ≤ d.endDate) ∧
    ((p.ApplyDiscount d now wallClock).1 = some DomainError.invalidDiscountPeriod ↔
      d.endDate < now) := by
  have hiff : d.IsValidAt now = true ↔ now ≤ d.endDate := by
    simp [Discount.IsValidAt]
    exact le_iff_lt_or_eq.symm
  refine ⟨hiff, ?_⟩
  by_cases h : now ≤ d.endDate
  · have hv : d.IsValidAt now = true := hiff.mpr h
    simp [Product.ApplyDiscount, hact, hv]
    exact h
  · have hv : d.IsValidAt now = false := by
      cases hb : d.IsValidAt now
      · rfl
      · exact absurd (hiff.mp hb) h
    simp [Product.ApplyDiscount, hact, hv]
    exact not_le.mp h

/-- Witness for C5 at concrete inputs. -/
theorem C5_witness :
    (sampleDiscount.IsValidAt 150 = true ↔ (150 : Int) ≤ 200) ∧
    ((sampleActive.ApplyDiscount sampleDiscount 150 7).1 =
        some DomainError.invalidDiscountPeriod ↔ (200 : Int) < 150) :=
  C5_isValidAt_applyDiscount sampleDiscount 150 sampleActive rfl 7

/-- C4: `EffectivePrice(now)` returns the base price unchanged when
there is no discount or the discount is not active at `now`, and
otherwise returns `basePrice.ApplyPercentage(discount.Percentage())`;
the `Product` structure stores no effective-price field, so the result
is recomputed from `basePrice` and `discount` on every call. -/
theorem C4_effectivePrice (p : Product) (d : Discount) (now : Instant) :
    (p.discount = none → p.EffectivePrice now = .ok p.basePrice) ∧
    (p.discount = some d → d.IsActiveAt now = false →
      p.EffectivePrice now = .ok p.basePrice) ∧
    (p.discount = some d → d.IsActiveAt now = true →
      p.EffectivePrice now = p.basePrice.ApplyPercentage d.percentage) := by
  refine ⟨?_, ?_, ?_⟩
  · intro h
    simp [Product.EffectivePrice, h]
  · intro h ha
    simp [Product.EffectivePrice, h, ha]
  · intro h ha
    simp [Product.EffectivePrice, h, ha]

/-- Witness for C4 at concrete inputs, covering all three branches. -/
theorem C4_witness :
    (sampleActive.EffectivePrice 150 = .ok sampleActive.basePrice) ∧
    (sampleDiscounted.EffectivePrice 300 = .ok sampleDiscounted.basePrice) ∧
    (sampleDiscounted.EffectivePrice 150 =
      sampleDiscounted.basePrice.ApplyPercentage 20) :=
  ⟨(C4_effectivePrice sampleActive sampleDiscount 150).1 rfl,
   (C4_effectivePrice sampleDiscounted sampleDiscount 300).2.1 rfl (by decide),
   (C4_effectivePrice sampleDiscounted sampleDiscount 150).2.2 rfl (by decide)⟩

/-- C2: for a `Money` built from a positive rational `num/den` and any
percentage `0 ≤ p ≤ 100`, `NewMoney` succeeds with the exact rational
`num/den` and `ApplyPercentage(p)` succeeds with the exact rational
`num*(100-p)/(den*100)`; all arithmetic is exact in `ℚ`, never floating
point. -/
theorem C2_applyPercentage_exact (num den p : Int) (hden : den ≠ 0)
    (hpos : 0 < (num : ℚ) / (den : ℚ)) (hp0 : 0 ≤ p) (hp1 : p ≤ 100) :
    NewMoney num den = .ok ⟨(num : ℚ) / (den : ℚ)⟩ ∧
    Money.ApplyPercentage ⟨(num : ℚ) / (den : ℚ)⟩ p =
      .ok ⟨(num * (100 - p) : ℚ) / ((den * 100 : Int) : ℚ)⟩ := by
  have hdq : (den : ℚ) ≠ 0 := Int.cast_ne_zero.mpr hden
  constructor
  · have hnotle : ¬ ((num : ℚ) / (den : ℚ) ≤ 0) := not_le.mpr hpos
    simp [NewMoney, hden, hnotle]
  · have hrange : ¬ (p < 0 ∨ p > 100) := by
      push_neg
      exact ⟨hp0, hp1⟩
    simp only [Money.ApplyPercentage, hrange, if_false]
    congr 1
    congr 1
    push_cast
    field_simp
    ring

/-- Witness for C2 at the spec example: base 10000/100, discount 20%. -/
theorem C2_witness :
    NewMoney 10000 100 = .ok ⟨(10000 : ℚ) / ((100 : Int) : ℚ)⟩ ∧
    Money.ApplyPercentage ⟨(10000 : ℚ) / ((100 : Int) : ℚ)⟩ 20 =
      .ok ⟨((10000 : Int) * (100 - 20) : ℚ) / ((((100 : Int) * 100 : Int)) : ℚ)⟩ :=
  C2_applyPercentage_exact 10000 100 20 (by decide) (by norm_num) (by decide) (by decide)

/-- The Money invariant of the spec: non-zero denominator, positive
value.  (In this embedding `value : ℚ` always keeps a positive reduced
denominator, mirroring `big.Rat`.) -/
def MoneyInvariant (m : Money) : Prop := m.value.den ≠ 0 ∧ 0 < m.value

/-- Counterexample for C3: `ApplyPercentage(100)` on the Money `1`
(reachable via `NewMoney 1 1`) succeeds and returns a Money of value
`0`, which violates the invariant `value > 0`. -/
theorem C3_counterexample :
    NewMoney 1 1 = .ok ⟨1⟩ ∧
    MoneyInvariant ⟨1⟩ ∧
    Money.ApplyPercentage ⟨1⟩ 100 = .ok ⟨0⟩ ∧
    ¬ MoneyInvariant ⟨0⟩ := by
  refine ⟨by norm_num [NewMoney], by norm_num [MoneyInvariant], ?_, ?_⟩
  · norm_num [Money.ApplyPercentage]
  · intro hinv
    exact absurd hinv.2 (by norm_num)

/-- C3 as amended: `NewMoney` establishes the invariant and rejects any
non-positive rational (including denominator 0) with `InvalidPrice`;
`Add` preserves the invariant; `ApplyPercentage` preserves it for every
percentage strictly below 100, but for percentage = 100 it only
guarantees a non-negative value — the result value is `0` there, and
the invariant is lost. -/
theorem C3_money_invariant_amended (num den num2 den2 p : Int) (m other : Money)
    (hm : MoneyInvariant m) (hother : MoneyInvariant other)
    (hden : den ≠ 0) (hq : 0 < (num : ℚ) / (den : ℚ))
    (hneg : (num2 : ℚ) / (den2 : ℚ) ≤ 0)
    (hp0 : 0 ≤ p) (hp1 : p ≤ 100) :
    NewMoney num den = .ok ⟨(num : ℚ) / (den : ℚ)⟩ ∧
    MoneyInvariant ⟨(num : ℚ) / (den : ℚ)⟩ ∧
    NewMoney num2 den2 = .error DomainError.invalidPrice ∧
    Money.Add m other = .ok ⟨m.value + other.value⟩ ∧
    MoneyInvariant ⟨m.value + other.value⟩ ∧
    Money.ApplyPercentage m p = .ok ⟨m.value - m.value * ((p : ℚ) / 100)⟩ ∧
    0 ≤ m.value - m.value * ((p : ℚ) / 100) ∧
    (p < 100 → 0 < m.value - m.value * ((p : ℚ) / 100)) := by
  have hpq0 : (0 : ℚ) ≤ (p : ℚ) := by exact_mod_cast hp0
  have hpq1 : (p : ℚ) ≤ 100 := by exact_mod_cast hp1
  refine ⟨?_, ?_, ?_, rfl, ?_, ?_, ?_, ?_⟩
  · have hnotle : ¬ ((num : ℚ) / (den : ℚ) ≤ 0) := not_le.mpr hq
    simp [NewMoney, hden, hnotle]
  · exact ⟨Rat.den_nz _, hq⟩
  · by_cases h0 : den2 = 0
    · simp [NewMoney, h0]
    · simp [NewMoney, h0, hneg]
  · exact ⟨Rat.den_nz _, add_pos hm.2 hother.2⟩
  · have hrange : ¬ (p < 0 ∨ p > 100) := by
      push_neg
      exact ⟨hp0, hp1⟩
    simp only [Money.ApplyPercentage, hrange, if_false]
  · nlinarith [hm.2]
  · intro hlt
    have hpq : (p : ℚ) < 100 := by exact_mod_cast hlt
    nlinarith [hm.2]

/-- Witness for the amended C3 at concrete inputs (num 3, den 2,
rejected input -1/2, percentage 50, Money values 2 and 1). -/
theorem C3_witness :
    NewMoney 3 2 = .ok ⟨(3 : ℚ) / ((2 : Int) : ℚ)⟩ ∧
    MoneyInvariant ⟨(3 : ℚ) / ((2 : Int) : ℚ)⟩ ∧
    NewMoney (-1) 2 = .error DomainError.invalidPrice ∧
    Money.Add ⟨2⟩ ⟨1⟩ = .ok ⟨(2 : ℚ) + 1⟩ ∧
    MoneyInvariant ⟨(2 : ℚ) + 1⟩ ∧
    Money.ApplyPercentage ⟨2⟩ 50 = .ok ⟨(2 : ℚ) - 2 * (((50 : Int) : ℚ) / 100)⟩ ∧
    (0 : ℚ) ≤ (2 : ℚ) - 2 * (((50 : Int) : ℚ) / 100) ∧
    ((50 : Int) < 100 → (0 : ℚ) < (2 : ℚ) - 2 * (((50 : Int) : ℚ) / 100)) :=
  C3_money_invariant_amended 3 2 (-1) 2 50 ⟨2⟩ ⟨1⟩
    (by norm_num [MoneyInvariant]) (by norm_num [MoneyInvariant])
    (by decide) (by norm_num) (by norm_num) (by decide) (by decide)

/-- Counterexample for C1: on an archived product, `ApplyDiscount` does
not fail with `ProductIsArchived` — its guard is `status != active`, so
it fails with `ProductNotActive` instead. -/
theorem C1_counterexample :
    (sampleArchived.ApplyDiscount sampleDiscount 150 7).1 =
      some DomainError.productNotActive ∧
    some DomainError.productNotActive ≠ some DomainError.productIsArchived := by
  decide

/-- C1 as amended: from `archived`, every mutating business method
except a repeated `Archive` fails and leaves the aggregate state, the
dirty-field set and the event buffer unchanged; `UpdateDetails`,
`Activate`, `Deactivate` and `RemoveDiscount` fail with
`ProductIsArchived`, while `ApplyDiscount` fails with
`ProductNotActive` (its guard checks `status != active`). -/
theorem C1_archived_closure (q : Product) (hq : q.status = ProductStatus.archived)
    (name description category : String) (d : Discount) (now wallClock : Instant) :
    q.UpdateDetails name description category now wallClock =
      (some DomainError.productIsArchived, q) ∧
    q.Activate now wallClock = (some DomainError.productIsArchived, q) ∧
    q.Deactivate now wallClock = (some DomainError.productIsArchived, q) ∧
    q.RemoveDiscount now wallClock = (some DomainError.productIsArchived, q) ∧
    q.ApplyDiscount d now wallClock = (some DomainError.productNotActive, q) := by
  refine ⟨?_, ?_, ?_, ?_, ?_⟩
  · simp [Product.UpdateDetails, hq]
  · simp [Product.Activate, hq]
  · simp [Product.Deactivate, hq]
  · simp [Product.RemoveDiscount, hq]
  · simp [Product.ApplyDiscount, hq]

/-- Witness for the amended C1 at concrete inputs. -/
theorem C1_witness :
    sampleArchived.UpdateDetails "n" "d" "c" 5 7 =
      (some DomainError.productIsArchived, sampleArchived) ∧
    sampleArchived.Activate 5 7 = (some DomainError.productIsArchived, sampleArchived) ∧
    sampleArchived.Deactivate 5 7 = (some DomainError.productIsArchived, sampleArchived) ∧
    sampleArchived.RemoveDiscount 5 7 =
      (some DomainError.productIsArchived, sampleArchived) ∧
    sampleArchived.ApplyDiscount sampleDiscount 5 7 =
      (some DomainError.productNotActive, sampleArchived) :=
  C1_archived_closure sampleArchived rfl "n" "d" "c" sampleDiscount 5 7

/-- Forget an event's wall-clock stamp (normalise `occurredAt` to 0),
for stating determinism modulo event timestamps. -/
def DomainEvent.eraseOccurredAt : DomainEvent → DomainEvent
  | .productCreated b n c nu de => .productCreated { b with occurredAt := 0 } n c nu de
  | .productUpdated b => .productUpdated { b with occurredAt := 0 }
  | .productActivated b => .productActivated { b with occurredAt := 0 }
  | .productDeactivated b => .productDeactivated { b with occurredAt := 0 }
  | .productArchived b => .productArchived { b with occurredAt := 0 }
  | .discountApplied b pc s e => .discountApplied { b with occurredAt := 0 } pc s e
  | .discountRemoved b => .discountRemoved { b with occurredAt := 0 }

/-- A product with the wall-clock stamps of its buffered events
forgotten. -/
def Product.eraseEventTimes (p : Product) : Product :=
  { p with events := p.events.map DomainEvent.eraseOccurredAt }

/-- Helper: recording events that differ only in their wall-clock stamp
yields products equal modulo event timestamps. -/
theorem eraseEventTimes_recordEvent (p : Product) (e1 e2 : DomainEvent)
    (h : e1.eraseOccurredAt = e2.eraseOccurredAt) :
    (p.recordEvent e1).eraseEventTimes = (p.recordEvent e2).eraseEventTimes := by
  simp [Product.recordEvent, Product.eraseEventTimes, h]

/-- Counterexample for C8: two runs of `Deactivate` on the same product
state with the same supplied `now` but different wall-clock instants
produce different outcomes — the raised event's `occurredAt` comes from
`time.Now()` inside `NewBaseEvent`, not from the supplied `now`. -/
theorem C8_counterexample :
    sampleActive.Deactivate 10 0 ≠ sampleActive.Deactivate 10 1 := by
  decide

/-- C8 as amended: every business method is a deterministic function of
the aggregate state, its arguments, the supplied `now` and the ambient
wall clock; the wall clock influences nothing but the `occurredAt`
stamps of the raised events, so two runs on identical states with the
same supplied `now` agree on the returned error and on the entire
resulting aggregate modulo event timestamps. -/
theorem C8_determinism_amended (p : Product) (name description category : String)
    (d : Discount) (now wc1 wc2 : Instant) :
    ((p.UpdateDetails name description category now wc1).1 =
        (p.UpdateDetails name description category now wc2).1 ∧
      (p.UpdateDetails name description category now wc1).2.eraseEventTimes =
        (p.UpdateDetails name description category now wc2).2.eraseEventTimes) ∧
    ((p.Activate now wc1).1 = (p.Activate now wc2).1 ∧
      (p.Activate now wc1).2.eraseEventTimes = (p.Activate now wc2).2.eraseEventTimes) ∧
    ((p.Deactivate now wc1).1 = (p.Deactivate now wc2).1 ∧
      (p.Deactivate now wc1).2.eraseEventTimes =
        (p.Deactivate now wc2).2.eraseEventTimes) ∧
    ((p.ApplyDiscount d now wc1).1 = (p.ApplyDiscount d now wc2).1 ∧
      (p.ApplyDiscount d now wc1).2.eraseEventTimes =
        (p.ApplyDiscount d now wc2).2.eraseEventTimes) ∧
    ((p.RemoveDiscount now wc1).1 = (p.RemoveDiscount now wc2).1 ∧
      (p.RemoveDiscount now wc1).2.eraseEventTimes =
        (p.RemoveDiscount now wc2).2.eraseEventTimes) ∧
    ((p.Archive now wc1).1 = (p.Archive now wc2).1 ∧
      (p.Archive now wc1).2.eraseEventTimes = (p.Archive now wc2).2.eraseEventTimes) := by
  refine ⟨?_, ?_, ?_, ?_, ?_, ?_⟩
  · unfold Product.UpdateDetails
    split
    · exact ⟨rfl, rfl⟩
    · split
      · exact ⟨rfl, rfl⟩
      · split
        · exact ⟨rfl, rfl⟩
        · dsimp only
          repeat' split
          all_goals
            first
              | exact ⟨rfl, eraseEventTimes_recordEvent _ _ _ rfl⟩
              | exact ⟨rfl, rfl⟩
  · unfold Product.Activate
    split
    · exact ⟨rfl, rfl⟩
    · split
      · exact ⟨rfl, rfl⟩
      · exact ⟨rfl, eraseEventTimes_recordEvent _ _ _ rfl⟩
  · unfold Product.Deactivate
    split
    · exact ⟨rfl, rfl⟩
    · split
      · exact ⟨rfl, rfl⟩
      · exact ⟨rfl, eraseEventTimes_recordEvent _ _ _ rfl⟩
  · unfold Product.ApplyDiscount
    split
    · exact ⟨rfl, rfl⟩
    · split
      · exact ⟨rfl, rfl⟩
      · exact ⟨rfl, eraseEventTimes_recordEvent _ _ _ rfl⟩
  · unfold Product.RemoveDiscount
    split
    · exact ⟨rfl, rfl⟩
    · split
      · exact ⟨rfl, rfl⟩
      · exact ⟨rfl, eraseEventTimes_recordEvent _ _ _ rfl⟩
  · unfold Product.Archive
    split
    · exact ⟨rfl, rfl⟩
    · exact ⟨rfl, eraseEventTimes_recordEvent _ _ _ rfl⟩

/-- A raised DiscountApplied event: aggregate "p-1", 20% over
[100, 200], stamped at wall-clock 50. -/
def sampleDiscountApplied : DomainEvent :=
  NewDiscountAppliedEvent 50 "p-1" 20 100 200

/-- C6, evaluated at the failing input: enriching a `DiscountApplied`
event through `services.EventEnricher.EnrichEvent` (the enricher wired
into the apply-discount interactor) produces a payload holding only the
common envelope — the discount percentage and start/end window are
absent — whereas `create_product.Interactor.enrichEvent` does fold the
variant-specific fields in, as the claim (and the spec) describe. -/
theorem C6_enrichment_divergence :
    (EventEnricher.EnrichEvent "e-1" sampleDiscountApplied).Payload =
      [("aggregate_id", .str "p-1"), ("event_type", .str "discount.applied"),
       ("occurred_at", .int 50)] ∧
    (EventEnricher.EnrichEvent "e-1" sampleDiscountApplied).Payload.lookup
      "discount_percent" = none ∧
    (EventEnricher.EnrichEvent "e-1" sampleDiscountApplied).Payload.lookup
      "start_date" = none ∧
    (EventEnricher.EnrichEvent "e-1" sampleDiscountApplied).Payload.lookup
      "end_date" = none ∧
    (Interactor.enrichEvent "e-1" sampleDiscountApplied).Payload.lookup
      "discount_percent" = some (.int 20) ∧
    (Interactor.enrichEvent "e-1" sampleDiscountApplied).Payload.lookup
      "start_date" = some (.int 100) ∧
    (Interactor.enrichEvent "e-1" sampleDiscountApplied).Payload.lookup
      "end_date" = some (.int 200) ∧
    (Interactor.enrichEvent "e-1" sampleDiscountApplied).Payload.lookup
      "aggregate_id" = some (.str "p-1") ∧
    (Interactor.enrichEvent "e-1" sampleDiscountApplied).Payload.lookup
      "event_type" = some (.str "discount.applied") ∧
    (Interactor.enrichEvent "e-1" sampleDiscountApplied).Payload.lookup
      "occurred_at" = some (.int 50) ∧
    (EventEnricher.EnrichEvent "e-1" sampleDiscountApplied).EventID = "e-1" := by
  decide

end ProductCatalog
